import Mathlib

/-!
Verification of the cyclonus generate command (pkg/cli/generate.go) and the
connectivity engine it drives, as a shallow embedding in Lean 4.

The CLI surface (GenerateArgs, the SetupGenerateCommand flag defaults,
mkInterpreterConfig, the RunGenerateCommand control flow) is translated directly
from pkg/cli/generate.go. The connectivity engine (Truth Table, Probe Runner,
Interpreter) lives in packages that are not part of the sources here; those
parts are modelled from the design specification, each with a doc comment saying
so. utils.DoOrDie, also outside the sources, terminates the process on a non-nil
error (every call site in generate.go treats it as a fatal-error guard, and the
data-model section of the specification speaks of a fatal error aborting the
run); the embedding renders each DoOrDie call as an early exit with RunExit.died.
-/

namespace Cyclonus

/-- Modelled from the spec: probe outcomes of the Probe Runner (pkg/connectivity,
not under the sources); an outcome is one of Reachable, Unreachable,
Indeterminate. -/
inductive Outcome where
  | Reachable
  | Unreachable
  | Indeterminate
deriving DecidableEq, Inhabited

/-- Modelled from the spec: the raw result of a single attempt of the external
Probe Executor (pkg/kube, not under the sources): a definitive connect, a
definitive refusal or timeout, or a transient execution error. -/
inductive ExecResult where
  | connected
  | refused
  | execError
deriving DecidableEq, Inhabited

/-- Modelled from the spec: the retry loop of the Probe Runner (pkg/connectivity,
not under the sources). The executor is indexed by attempt number; a transient
execution error is retried while retries remain, a definitive signal is returned
at once and never retried; exhaustion yields Indeterminate. Returns the total
number of attempts performed together with the resolved outcome. -/
def probeLoop (executor : Nat → ExecResult) : Nat → Nat → Nat × Outcome
  | remaining, k =>
    match executor k with
    | ExecResult.connected => (k + 1, Outcome.Reachable)
    | ExecResult.refused => (k + 1, Outcome.Unreachable)
    | ExecResult.execError =>
      match remaining with
      | 0 => (k + 1, Outcome.Indeterminate)
      | Nat.succ r => probeLoop executor r (k + 1)

/-- Modelled from the spec: the Probe Runner entry point (pkg/connectivity, not
under the sources), starting with the configured retry budget at attempt 0. -/
def runProbe (executor : Nat → ExecResult) (retries : Nat) : Nat × Outcome :=
  probeLoop executor retries 0

/-- Modelled from the spec: an Identity is a (namespace, pod-name) pair
(pkg/connectivity/probe, not under the sources). -/
structure Identity where
  ns : String
  pod : String
deriving DecidableEq, Inhabited

/-- Modelled from the spec: protocols are drawn from the closed set TCP, UDP,
SCTP. -/
inductive Protocol where
  | TCP
  | UDP
  | SCTP
deriving DecidableEq, Inhabited

/-- Modelled from the spec: one configured (port, protocol) combination under
test. -/
structure PortProtocol where
  port : Int
  protocol : Protocol
deriving DecidableEq, Inhabited

/-- Modelled from the spec: a truth-table cell address, a (source identity,
destination identity, port/protocol tuple) triple. -/
structure Cell where
  src : Identity
  dst : Identity
  pp : PortProtocol
deriving DecidableEq, Inhabited

/-- Modelled from the spec: whether an observed outcome is a hard mismatch
against the expected boolean reachability verdict. An Indeterminate observation
is a warning, not a hard mismatch, so it never lands in the diff. -/
def cellMismatch (expected : Bool) (observed : Outcome) : Bool :=
  match observed with
  | Outcome.Reachable => !expected
  | Outcome.Unreachable => expected
  | Outcome.Indeterminate => false

/-- Modelled from the spec: the Diff operation of the Truth Table
(pkg/connectivity, not under the sources). The observed table is an association
list over the probed cells; a cell lands in the diff when it is a hard mismatch,
except that with ignore-loopback set a cell whose source equals its destination
is excluded from comparison. -/
def diffTables (ignoreLoopback : Bool) (expected : Cell → Bool)
    (observed : List (Cell × Outcome)) : List Cell :=
  (observed.filter fun co =>
    if ignoreLoopback ∧ co.1.src = co.1.dst then false
    else cellMismatch (expected co.1) co.2).map Prod.fst

/-- Modelled from the spec: a probe mode of the generator package
(generator.AllProbeModes, not under the sources); the generate command's
destination-type flag help text lists the valid modes. -/
inductive ProbeMode where
  | serviceName
  | serviceIP
  | podIP
deriving DecidableEq, Inhabited

/-- Modelled from the spec: the string names of the probe modes accepted by the
destination-type flag. -/
def AllProbeModes : List String := ["service-name", "service-ip", "pod-ip"]

/-- Modelled from the spec: generator.ParseProbeMode (not under the sources)
parses a probe-mode string, returning none for a string outside the closed
set. -/
def ParseProbeMode (s : String) : Option ProbeMode :=
  if s = "service-name" then some ProbeMode.serviceName
  else if s = "service-ip" then some ProbeMode.serviceIP
  else if s = "pod-ip" then some ProbeMode.podIP
  else none

/-- Modelled from the spec: the probe settings of a step; the generate command
only touches its Mode field (generate.go line 136). -/
structure ProbeConfig where
  Mode : ProbeMode
deriving DecidableEq, Inhabited

/-- Modelled from the spec: one perturbation Step of a Test Case, carrying the
mutation to apply (identified here by a number, since the mutation payload is
opaque to the control flow), the probe settings and the Expected Truth Table. -/
structure Step where
  Probe : ProbeConfig
  mutation : Nat
  expected : Cell → Bool
deriving Inhabited

/-- Modelled from the spec: a Test Case is an ordered sequence of Steps with a
description and tags (generator package, not under the sources). -/
structure TestCase where
  Description : String
  Tags : List String
  Steps : List Step
deriving Inhabited

/-- Modelled from the spec: the terminal errors of the Interpreter state
machine; Failed is reachable from Resetting, Perturbing or Verifying. -/
inductive StepError where
  | resetError
  | perturbError
  | verifyError
deriving DecidableEq, Inhabited

/-- Observable events of a run: the collaborator calls made by the Interpreter
(reset, mutation application, settle wait, verification read, probe) and the
run-level actions of the generate command (starting a test case, deleting a
namespace during cleanup). applyMutation carries the step index within the test
case together with the step's mutation, so distinct steps make distinct calls. -/
inductive Event where
  | reset
  | applyMutation (stepIdx : Nat) (m : Nat)
  | settle (seconds : Int)
  | verify
  | probe (c : Cell)
  | executeCase (i : Nat)
  | deleteNamespace (ns : String)
deriving DecidableEq, Inhabited

/-- Modelled from the spec: the behaviour of the external collaborators during a
run — whether the reset call succeeds, whether applying a given mutation
succeeds, whether post-apply verification of a given mutation succeeds, and the
attempt-indexed result of the external probe executor at each cell. -/
structure Env where
  resetOk : Bool
  applyOk : Nat → Bool
  verifyOk : Nat → Bool
  execResult : Cell → Nat → ExecResult

/-- Modelled from the spec: the interpreter configuration value object
(connectivity.InterpreterConfig, declared outside the sources but constructed at
generate.go lines 98-105). Go ints are embedded as Int. -/
structure InterpreterConfig where
  ResetClusterBeforeTestCase : Bool
  KubeProbeRetries : Int
  PerturbationWaitSeconds : Int
  VerifyClusterStateBeforeTestCase : Bool
  BatchJobs : Bool
  IgnoreLoopback : Bool
deriving DecidableEq, Inhabited

/-- Modelled from the spec: the Observed Truth Table assembled during the
Probing state, one probe per cell of the configured cross-product, each resolved
through the Probe Runner with the configured retry count. -/
def observedTable (cfg : InterpreterConfig) (env : Env) (keys : List Cell) :
    List (Cell × Outcome) :=
  keys.map fun c => (c, (runProbe (env.execResult c) cfg.KubeProbeRetries.toNat).2)

/-- Modelled from the spec: the per-step Result — the Observed Truth Table, the
diff against Expected, and whether the step passed (empty diff). -/
structure StepResult where
  observed : List (Cell × Outcome)
  diffList : List Cell
  passed : Bool
deriving DecidableEq, Inhabited

/-- Modelled from the spec: one run of the Interpreter state machine for a
single Step (Idle, Resetting, Perturbing, Settling, Verifying, Probing, Diffing,
Done, with Failed reachable from Resetting, Perturbing and Verifying). Returns
the trace of collaborator calls and either the step's terminal error or its
result. The step index i tags the mutation call. -/
def executeStep (cfg : InterpreterConfig) (env : Env) (keys : List Cell)
    (i : Nat) (step : Step) : List Event × Except StepError StepResult :=
  let resetEv : List Event := if cfg.ResetClusterBeforeTestCase then [Event.reset] else []
  if cfg.ResetClusterBeforeTestCase ∧ env.resetOk = false then
    (resetEv, Except.error StepError.resetError)
  else if env.applyOk step.mutation = false then
    (resetEv ++ [Event.applyMutation i step.mutation], Except.error StepError.perturbError)
  else
    let ev1 := resetEv ++
      [Event.applyMutation i step.mutation, Event.settle cfg.PerturbationWaitSeconds]
    if cfg.VerifyClusterStateBeforeTestCase ∧ env.verifyOk step.mutation = false then
      (ev1 ++ [Event.verify], Except.error StepError.verifyError)
    else
      let ev2 := ev1 ++
        (if cfg.VerifyClusterStateBeforeTestCase then [Event.verify] else []) ++
        keys.map Event.probe
      let observed := observedTable cfg env keys
      let d := diffTables cfg.IgnoreLoopback step.expected observed
      (ev2, Except.ok { observed := observed, diffList := d, passed := d.isEmpty })

/-- Modelled from the spec: a Test Case with multiple Steps drives the machine
sequentially, accumulating one result per step, and aborts the remaining steps
on the first Failed transition. Returns the accumulated trace, the results of
the completed steps, and the first terminal error if any. -/
def executeSteps (cfg : InterpreterConfig) (env : Env) (keys : List Cell) :
    Nat → List Step → List Event × List StepResult × Option StepError
  | _, [] => ([], [], none)
  | i, s :: rest =>
    match executeStep cfg env keys i s with
    | (ev, Except.error e) => (ev, [], some e)
    | (ev, Except.ok r) =>
      let rec2 := executeSteps cfg env keys (i + 1) rest
      (ev ++ rec2.1, r :: rec2.2.1, rec2.2.2)

/-- Modelled from the spec: the per-test-case Result handed to the reporting
collaborator — the realized step results and an optional terminal error. -/
structure CaseResult where
  stepResults : List StepResult
  Err : Option StepError

/-- Modelled from the spec: connectivity.Interpreter.ExecuteTestCase (not under
the sources) runs the state machine over the test case's steps starting at step
index 0 and packages the outcome as the case's Result. -/
def executeTestCase (cfg : InterpreterConfig) (env : Env) (keys : List Cell)
    (tc : TestCase) : List Event × CaseResult :=
  let t := executeSteps cfg env keys 0 tc.Steps
  (t.1, { stepResults := t.2.1, Err := t.2.2 })

/-- The flag values of the generate command, translated field by field from the
GenerateArgs struct (generate.go lines 15-34). Go ints are embedded as Int. -/
structure GenerateArgs where
  AllowDNS : Bool
  Noisy : Bool
  IgnoreLoopback : Bool
  PerturbationWaitSeconds : Int
  PodCreationTimeoutSeconds : Int
  Retries : Int
  BatchJobs : Bool
  Context : String
  ServerPorts : List Int
  ServerProtocols : List String
  ServerNamespaces : List String
  ServerPods : List String
  CleanupNamespaces : Bool
  Include : List String
  Exclude : List String
  DestinationType : String
  Mock : Bool
  DryRun : Bool

/-- The default flag values registered by SetupGenerateCommand (generate.go
lines 49-69). The default exclude tags are the generator tag constants
TagMultiPeer, TagUpstreamE2E, TagExample, rendered here by name. -/
def defaultGenerateArgs : GenerateArgs :=
  { AllowDNS := true
    Noisy := false
    IgnoreLoopback := false
    PerturbationWaitSeconds := 5
    PodCreationTimeoutSeconds := 60
    Retries := 1
    BatchJobs := false
    Context := ""
    ServerPorts := [80, 81]
    ServerProtocols := ["TCP", "UDP", "SCTP"]
    ServerNamespaces := ["x", "y", "z"]
    ServerPods := ["a", "b", "c"]
    CleanupNamespaces := false
    Include := []
    Exclude := ["TagMultiPeer", "TagUpstreamE2E", "TagExample"]
    DestinationType := ""
    Mock := false
    DryRun := false }

/-- The interpreter configuration literal of RunGenerateCommand (generate.go
lines 98-105): reset and verify are hard-coded to true, the remaining fields are
copied from the flags. -/
def mkInterpreterConfig (args : GenerateArgs) : InterpreterConfig :=
  { ResetClusterBeforeTestCase := true
    KubeProbeRetries := args.Retries
    PerturbationWaitSeconds := args.PerturbationWaitSeconds
    VerifyClusterStateBeforeTestCase := true
    BatchJobs := args.BatchJobs
    IgnoreLoopback := args.IgnoreLoopback }

/-- How a run of the generate command ends: it either completes, or the process
dies inside one of the DoOrDie fatal-error guards. -/
inductive RunExit where
  | completed
  | died
deriving DecidableEq, Inhabited

/-- The two kinds of kubernetes backend selectable at generate.go line 82. -/
inductive Backend where
  | mock
  | real
deriving DecidableEq, Inhabited

/-- Backend selection of RunGenerateCommand (generate.go lines 81-91): a mock
backend when the mock or dry-run flag is set, the real cluster client
otherwise. -/
def chooseBackend (args : GenerateArgs) : Backend :=
  if args.Mock || args.DryRun then Backend.mock else Backend.real

/-- The destination-type override loop of RunGenerateCommand (generate.go lines
134-138): every step of every test case has its probe mode overwritten. -/
def setProbeModes (mode : ProbeMode) (tcs : List TestCase) : List TestCase :=
  tcs.map fun tc =>
    { tc with Steps := tc.Steps.map fun s => { s with Probe := { Mode := mode } } }

/-- The destination-type handling of RunGenerateCommand (generate.go lines
131-139): an empty flag leaves the test cases untouched; otherwise the flag is
parsed, a parse failure is fatal (DoOrDie at line 133), and on success every
step's probe mode is overwritten before the execution loop starts. -/
def destinationOverride (destinationType : String) (tcs : List TestCase) :
    Except Unit (List TestCase) :=
  if destinationType = "" then Except.ok tcs
  else
    match ParseProbeMode destinationType with
    | none => Except.error ()
    | some mode => Except.ok (setProbeModes mode tcs)

/-- The test-case execution loop of RunGenerateCommand (generate.go lines
141-149): each case is executed in order, and DoOrDie(result.Err) at line 145
kills the run as soon as a case yields a terminal error, before any later case
starts. The parameter i is the position of the first remaining case. -/
def runTestCaseLoop (cfg : InterpreterConfig) (env : Env) (keys : List Cell) :
    Nat → List TestCase → List Event × RunExit
  | _, [] => ([], RunExit.completed)
  | i, tc :: rest =>
    match executeTestCase cfg env keys tc with
    | (ev, res) =>
      match res.Err with
      | some _ => (Event.executeCase i :: ev, RunExit.died)
      | none =>
        let rec2 := runTestCaseLoop cfg env keys (i + 1) rest
        (Event.executeCase i :: (ev ++ rec2.1), rec2.2)

/-- The external inputs of one run that generate.go obtains from collaborators:
the collaborator behaviour, the probed cell cross-product derived from the
provisioned resources, and the test cases produced by the generator. -/
structure RunEnv where
  env : Env
  keys : List Cell
  testCases : List TestCase

/-- RunGenerateCommand (generate.go lines 74-162) from the dry-run gate onward,
as a trace semantics. The enumeration printing (lines 117-125) performs no
cluster action; at line 127 a dry run returns before the destination-type
override, the execution loop and the namespace cleanup. Otherwise the
destination-type override runs (a parse failure dies at line 133 before any test
case executes), then the execution loop (line 141, dying on the first terminal
case error), and finally, only when the loop completed, the namespace cleanup of
lines 153-161 guarded by the cleanup-namespaces flag. -/
def RunGenerateCommand (args : GenerateArgs) (renv : RunEnv) : List Event × RunExit :=
  if args.DryRun = true then ([], RunExit.completed)
  else
    match destinationOverride args.DestinationType renv.testCases with
    | Except.error _ => ([], RunExit.died)
    | Except.ok tcs =>
      let cfg := mkInterpreterConfig args
      match runTestCaseLoop cfg renv.env renv.keys 0 tcs with
      | (ev, RunExit.died) => (ev, RunExit.died)
      | (ev, RunExit.completed) =>
        (ev ++ (if args.CleanupNamespaces then
          args.ServerNamespaces.map Event.deleteNamespace else []), RunExit.completed)

/-- The positions of the test cases started by a run, in trace order. -/
def caseIndices (evs : List Event) : List Nat :=
  evs.filterMap fun e =>
    match e with
    | Event.executeCase i => some i
    | _ => none

/-- Consecutive indices s, s + 1, ..., s + n - 1. -/
def idxRange : Nat → Nat → List Nat
  | _, 0 => []
  | s, Nat.succ n => s :: idxRange (s + 1) n

/-- Whether an event is a collaborator call issued from inside the Interpreter
(as opposed to a run-level action of the CLI loop). -/
def isStepEvent : Event → Bool
  | Event.executeCase _ => false
  | Event.deleteNamespace _ => false
  | _ => true

/-- A collaborator behaviour where every call succeeds and every probe connects
on the first attempt. -/
def sampleEnvOk : Env :=
  { resetOk := true
    applyOk := fun _ => true
    verifyOk := fun _ => true
    execResult := fun _ _ => ExecResult.connected }

/-- A collaborator behaviour where every mutation application fails, so every
step dies in the Perturbing state. -/
def sampleEnvApplyFails : Env :=
  { resetOk := true
    applyOk := fun _ => false
    verifyOk := fun _ => true
    execResult := fun _ _ => ExecResult.connected }

/-- A one-step test case expecting full reachability, with mutation number 0. -/
def sampleCase : TestCase :=
  { Description := "sample"
    Tags := []
    Steps := [{ Probe := { Mode := ProbeMode.podIP }, mutation := 0, expected := fun _ => true }] }

/-- A two-step test case whose steps carry mutations 0 and 1. -/
def sampleTwoStepCase : TestCase :=
  { Description := "two-step"
    Tags := []
    Steps :=
      [{ Probe := { Mode := ProbeMode.podIP }, mutation := 0, expected := fun _ => true },
       { Probe := { Mode := ProbeMode.podIP }, mutation := 1, expected := fun _ => true }] }

/-- The generate flags with the retries flag set to -1, a value the CLI parser
accepts and generate.go copies into the configuration unvalidated. -/
def negativeRetryArgs : GenerateArgs := { defaultGenerateArgs with Retries := -1 }

/-- A run environment with no probed cells and two failing test cases. -/
def sampleRunEnvFailing : RunEnv :=
  { env := sampleEnvApplyFails
    keys := []
    testCases := [sampleCase, sampleCase] }

/-- The generate flags with the destination-type flag set to the pod-ip probe
mode. -/
def podIPArgs : GenerateArgs := { defaultGenerateArgs with DestinationType := "pod-ip" }

end Cyclonus

namespace Cyclonus

lemma probeLoop_allFail (executor : Nat → ExecResult)
    (hfail : ∀ i, executor i = ExecResult.execError) :
    ∀ (r k : Nat), probeLoop executor r k = (k + r + 1, Outcome.Indeterminate) := by
  intro r
  induction r with
  | zero =>
    intro k
    simp [probeLoop, hfail k]
  | succ r ih =>
    intro k
    have h1 : probeLoop executor (r + 1) k = probeLoop executor r (k + 1) := by
      simp [probeLoop, hfail k]
    rw [h1, ih (k + 1)]
    have h2 : k + 1 + r + 1 = k + (r + 1) + 1 := by omega
    rw [h2]

/-- C2: with retry count N and an executor that fails with a transient execution
error on every attempt, the Probe Runner performs exactly N + 1 attempts and
then returns the Indeterminate outcome (and, the return type being an Outcome,
never a fatal error). -/
theorem retry_bound (executor : Nat → ExecResult) (N : Nat)
    (hfail : ∀ i, executor i = ExecResult.execError) :
    runProbe executor N = (N + 1, Outcome.Indeterminate) := by
  unfold runProbe
  rw [probeLoop_allFail executor hfail N 0]
  simp

/-- C2 witness: a concrete always-failing executor with retry count 2 performs
exactly 3 attempts and returns Indeterminate. -/
theorem retry_bound_witness :
    (∀ i, (fun (_ : Nat) => ExecResult.execError) i = ExecResult.execError) ∧
      runProbe (fun _ => ExecResult.execError) 2 = (3, Outcome.Indeterminate) :=
  ⟨fun _ => rfl, retry_bound (fun _ => ExecResult.execError) 2 (fun _ => rfl)⟩

/-- C4: with ignore-loopback enabled, a cell whose source identity equals its
destination identity never appears in the diff output, whatever the expected and
observed tables hold for it. -/
theorem loopback_excluded_from_diff (expected : Cell → Bool)
    (observed : List (Cell × Outcome)) (c : Cell) (h : c.src = c.dst) :
    c ∉ diffTables true expected observed := by
  intro hmem
  unfold diffTables at hmem
  rw [List.mem_map] at hmem
  obtain ⟨co, hco, hfst⟩ := hmem
  rw [List.mem_filter] at hco
  have hsrc : co.1.src = co.1.dst := by rw [hfst]; exact h
  simp [hsrc] at hco

/-- C4 witness: a concrete loopback cell with expected false but observed
Reachable is still absent from the diff when ignore-loopback is on. -/
theorem loopback_excluded_from_diff_witness :
    (Cell.mk (Identity.mk "x" "a") (Identity.mk "x" "a") (PortProtocol.mk 80 Protocol.TCP)).src =
      (Cell.mk (Identity.mk "x" "a") (Identity.mk "x" "a") (PortProtocol.mk 80 Protocol.TCP)).dst ∧
    (Cell.mk (Identity.mk "x" "a") (Identity.mk "x" "a") (PortProtocol.mk 80 Protocol.TCP)) ∉
      diffTables true (fun _ => false)
        [((Cell.mk (Identity.mk "x" "a") (Identity.mk "x" "a") (PortProtocol.mk 80 Protocol.TCP)),
          Outcome.Reachable)] :=
  ⟨rfl, loopback_excluded_from_diff (fun _ => false) _ _ rfl⟩

/-- C3: whenever a step execution produces a Result (rather than a terminal
error), the Result reports success exactly when the diff between the step's
Expected table and the Result's Observed table is empty; any non-empty diff
reports failure, however many cells mismatch. -/
theorem result_success_iff_diff_empty (cfg : InterpreterConfig) (env : Env)
    (keys : List Cell) (i : Nat) (step : Step) (r : StepResult)
    (h : (executeStep cfg env keys i step).2 = Except.ok r) :
    (r.passed = true ↔ diffTables cfg.IgnoreLoopback step.expected r.observed = []) := by
  unfold executeStep at h
  split_ifs at h <;>
    (dsimp only at h; rw [Except.ok.injEq] at h; subst h; simp [List.isEmpty_iff])

/-- C3 witness: a concrete step execution whose Result passes with an empty
diff. -/
theorem result_success_iff_diff_empty_witness :
    (executeStep (mkInterpreterConfig defaultGenerateArgs) sampleEnvOk [] 0
        (sampleCase.Steps.getD 0 default)).2 =
      Except.ok { observed := [], diffList := [], passed := true } ∧
    (({ observed := [], diffList := [], passed := true } : StepResult).passed = true ↔
      diffTables (mkInterpreterConfig defaultGenerateArgs).IgnoreLoopback
        (sampleCase.Steps.getD 0 default).expected
        ({ observed := [], diffList := [], passed := true } : StepResult).observed = []) :=
  ⟨by rfl, result_success_iff_diff_empty (mkInterpreterConfig defaultGenerateArgs) sampleEnvOk
    [] 0 (sampleCase.Steps.getD 0 default)
    { observed := [], diffList := [], passed := true } (by rfl)⟩

/-- C6 counterexample: the generate command accepts a negative retries flag and
copies it into the interpreter configuration without validation, so a run
invoked with retries set to -1 uses a configuration whose probe-retry count is
negative, violating the claimed invariant. -/
theorem negative_retries_config_cex :
    (mkInterpreterConfig negativeRetryArgs).KubeProbeRetries < 0 := by decide

/-- C6 amended: the configuration is built once per run from the CLI arguments;
its probe-retry count and settle duration equal the retries and
perturbation-wait-seconds arguments and hence are nonnegative whenever those
arguments are nonnegative (their flag defaults are 1 and 5). -/
theorem config_nonneg_of_args_nonneg (args : GenerateArgs)
    (h1 : 0 ≤ args.Retries) (h2 : 0 ≤ args.PerturbationWaitSeconds) :
    (mkInterpreterConfig args).KubeProbeRetries = args.Retries ∧
    (mkInterpreterConfig args).PerturbationWaitSeconds = args.PerturbationWaitSeconds ∧
    0 ≤ (mkInterpreterConfig args).KubeProbeRetries ∧
    0 ≤ (mkInterpreterConfig args).PerturbationWaitSeconds :=
  ⟨rfl, rfl, h1, h2⟩

/-- C6 amended witness: the default flag values are nonnegative and yield a
configuration satisfying the invariant. -/
theorem config_nonneg_of_args_nonneg_witness :
    0 ≤ defaultGenerateArgs.Retries ∧ 0 ≤ defaultGenerateArgs.PerturbationWaitSeconds ∧
    ((mkInterpreterConfig defaultGenerateArgs).KubeProbeRetries = defaultGenerateArgs.Retries ∧
     (mkInterpreterConfig defaultGenerateArgs).PerturbationWaitSeconds =
        defaultGenerateArgs.PerturbationWaitSeconds ∧
     0 ≤ (mkInterpreterConfig defaultGenerateArgs).KubeProbeRetries ∧
     0 ≤ (mkInterpreterConfig defaultGenerateArgs).PerturbationWaitSeconds) :=
  ⟨by decide, by decide,
    config_nonneg_of_args_nonneg defaultGenerateArgs (by decide) (by decide)⟩

/-- C8: for every invocation of the generate command, the constructed
interpreter configuration has the reset and verify flags hard-coded to true
(independently of every CLI argument, so no flag can disable them), and takes
its retry count, settle duration, batch-mode flag and ignore-loopback flag from
the corresponding CLI arguments. -/
theorem generate_config_fields (args : GenerateArgs) :
    (mkInterpreterConfig args).ResetClusterBeforeTestCase = true ∧
    (mkInterpreterConfig args).VerifyClusterStateBeforeTestCase = true ∧
    (mkInterpreterConfig args).KubeProbeRetries = args.Retries ∧
    (mkInterpreterConfig args).PerturbationWaitSeconds = args.PerturbationWaitSeconds ∧
    (mkInterpreterConfig args).BatchJobs = args.BatchJobs ∧
    (mkInterpreterConfig args).IgnoreLoopback = args.IgnoreLoopback :=
  ⟨rfl, rfl, rfl, rfl, rfl, rfl⟩

/-- C9: with the dry-run flag set, the selected backend is the mock one and
RunGenerateCommand returns right after the enumeration printing with an empty
effect trace and a completed exit — no test case starts, no mutation is applied,
no probe is issued and no namespace is deleted. -/
theorem dryRun_no_effects (args : GenerateArgs) (renv : RunEnv)
    (h : args.DryRun = true) :
    chooseBackend args = Backend.mock ∧ RunGenerateCommand args renv = ([], RunExit.completed) := by
  constructor
  · unfold chooseBackend
    simp [h]
  · unfold RunGenerateCommand
    simp [h]

/-- C9 witness: a concrete dry-run invocation uses the mock backend and produces
no effects. -/
theorem dryRun_no_effects_witness :
    ({ defaultGenerateArgs with DryRun := true } : GenerateArgs).DryRun = true ∧
    (chooseBackend { defaultGenerateArgs with DryRun := true } = Backend.mock ∧
      RunGenerateCommand { defaultGenerateArgs with DryRun := true } sampleRunEnvFailing =
        ([], RunExit.completed)) :=
  ⟨rfl, dryRun_no_effects { defaultGenerateArgs with DryRun := true } sampleRunEnvFailing rfl⟩

lemma applyMutation_eq_of_mem_executeStep (cfg : InterpreterConfig) (env : Env)
    (keys : List Cell) (i : Nat) (s : Step) (j m : Nat)
    (h : Event.applyMutation j m ∈ (executeStep cfg env keys i s).1) : j = i := by
  unfold executeStep at h
  split_ifs at h <;> simp_all [List.mem_append, List.mem_map]

lemma isStepEvent_of_mem_executeStep (cfg : InterpreterConfig) (env : Env)
    (keys : List Cell) (i : Nat) (s : Step) :
    ∀ e ∈ (executeStep cfg env keys i s).1, isStepEvent e = true := by
  intro e he
  unfold executeStep at he
  split_ifs at he <;> cases e <;>
    first
    | rfl
    | simp_all [List.mem_append, List.mem_map, isStepEvent]

lemma isStepEvent_of_mem_executeSteps (cfg : InterpreterConfig) (env : Env) (keys : List Cell) :
    ∀ (steps : List Step) (i : Nat) (e : Event),
      e ∈ (executeSteps cfg env keys i steps).1 → isStepEvent e = true := by
  intro steps
  induction steps with
  | nil =>
    intro i e he
    simp [executeSteps] at he
  | cons s rest ih =>
    intro i e he
    rw [executeSteps] at he
    cases hstep : executeStep cfg env keys i s with
    | mk ev res =>
      rw [hstep] at he
      cases res with
      | error err =>
        simp only at he
        have h1 := isStepEvent_of_mem_executeStep cfg env keys i s e
        rw [hstep] at h1
        exact h1 he
      | ok r =>
        simp only at he
        rw [List.mem_append] at he
        rcases he with he | he
        · have h1 := isStepEvent_of_mem_executeStep cfg env keys i s e
          rw [hstep] at h1
          exact h1 he
        · exact ih (i + 1) e he

lemma caseIndices_eq_nil_of_stepEvents (l : List Event)
    (h : ∀ e ∈ l, isStepEvent e = true) : caseIndices l = [] := by
  induction l with
  | nil => rfl
  | cons e rest ih =>
    have he := h e (List.mem_cons_self e rest)
    have hrest : ∀ x ∈ rest, isStepEvent x = true := fun x hx => h x (List.mem_cons_of_mem e hx)
    cases e <;>
      first
      | simpa [caseIndices, List.filterMap_cons] using ih hrest
      | simp [isStepEvent] at he

lemma caseIndices_executeTestCase (cfg : InterpreterConfig) (env : Env)
    (keys : List Cell) (tc : TestCase) :
    caseIndices (executeTestCase cfg env keys tc).1 = [] := by
  have h : ∀ e ∈ (executeSteps cfg env keys 0 tc.Steps).1, isStepEvent e = true :=
    isStepEvent_of_mem_executeSteps cfg env keys tc.Steps 0
  exact caseIndices_eq_nil_of_stepEvents _ h

lemma executeSteps_apply_mem (cfg : InterpreterConfig) (env : Env) (keys : List Cell) :
    ∀ (steps : List Step) (i j m : Nat),
      Event.applyMutation j m ∈ (executeSteps cfg env keys i steps).1 →
      i ≤ j ∧ ∀ l, l < j - i →
        ∃ r, (executeStep cfg env keys (i + l) (steps.getD l default)).2 = Except.ok r := by
  intro steps
  induction steps with
  | nil =>
    intro i j m h
    simp [executeSteps] at h
  | cons s rest ih =>
    intro i j m h
    rw [executeSteps] at h
    cases hstep : executeStep cfg env keys i s with
    | mk ev res =>
      rw [hstep] at h
      cases res with
      | error err =>
        simp only at h
        have hji : j = i := by
          have h1 := applyMutation_eq_of_mem_executeStep cfg env keys i s j m
          rw [hstep] at h1
          exact h1 h
        subst hji
        exact ⟨le_refl j, fun l hl => absurd hl (by omega)⟩
      | ok r =>
        simp only at h
        rw [List.mem_append] at h
        rcases h with h | h
        · have hji : j = i := by
            have h1 := applyMutation_eq_of_mem_executeStep cfg env keys i s j m
            rw [hstep] at h1
            exact h1 h
          subst hji
          exact ⟨le_refl j, fun l hl => absurd hl (by omega)⟩
        · obtain ⟨hij, hrest⟩ := ih (i + 1) j m h
          refine ⟨by omega, ?_⟩
          intro l hl
          cases l with
          | zero =>
            refine ⟨r, ?_⟩
            simp only [Nat.add_zero, List.getD_cons_zero]
            rw [hstep]
          | succ l2 =>
            have h2 : i + (l2 + 1) = (i + 1) + l2 := by omega
            rw [h2, List.getD_cons_succ]
            exact hrest l2 (by omega)

lemma executeCase_mem_loop (cfg : InterpreterConfig) (env : Env) (keys : List Cell) :
    ∀ (tcs : List TestCase) (i j : Nat),
      Event.executeCase j ∈ (runTestCaseLoop cfg env keys i tcs).1 →
      i ≤ j ∧ ∀ l, l < j - i →
        (executeTestCase cfg env keys (tcs.getD l default)).2.Err = none := by
  intro tcs
  induction tcs with
  | nil =>
    intro i j h
    simp [runTestCaseLoop] at h
  | cons tc rest ih =>
    intro i j h
    rw [runTestCaseLoop] at h
    cases hcase : executeTestCase cfg env keys tc with
    | mk ev res =>
      rw [hcase] at h
      simp only at h
      have hev : ∀ e ∈ ev, isStepEvent e = true := by
        intro e hee
        have h1 := isStepEvent_of_mem_executeSteps cfg env keys tc.Steps 0 e
        have h2 : (executeSteps cfg env keys 0 tc.Steps).1 = ev := congrArg Prod.fst hcase
        rw [h2] at h1
        exact h1 hee
      cases herr : res.Err with
      | some e =>
        rw [herr] at h
        simp only [List.mem_cons] at h
        rcases h with h | h
        · have hji : j = i := by
            rw [Event.executeCase.injEq] at h
            exact h
          subst hji
          exact ⟨le_refl j, fun l hl => absurd hl (by omega)⟩
        · have := hev _ h
          simp [isStepEvent] at this
      | none =>
        rw [herr] at h
        simp only [List.mem_cons, List.mem_append] at h
        rcases h with h | h | h
        · have hji : j = i := by
            rw [Event.executeCase.injEq] at h
            exact h
          subst hji
          exact ⟨le_refl j, fun l hl => absurd hl (by omega)⟩
        · have := hev _ h
          simp [isStepEvent] at this
        · obtain ⟨hij, hrest⟩ := ih (i + 1) j h
          refine ⟨by omega, ?_⟩
          intro l hl
          cases l with
          | zero =>
            rw [List.getD_cons_zero]
            have h2 : (executeTestCase cfg env keys tc).2 = res := congrArg Prod.snd hcase
            rw [congrArg CaseResult.Err h2]
            exact herr
          | succ l2 =>
            rw [List.getD_cons_succ]
            exact hrest l2 (by omega)

/-- C5: if the step at position k of a test case reaches the Failed state, then
the mutation call of any step after position k never reaches the provisioning
collaborator: no apply event tagged with a later step index occurs in the test
case's trace. -/
theorem failfast_no_later_mutation (cfg : InterpreterConfig) (env : Env) (keys : List Cell)
    (tc : TestCase) (k : Nat) (e : StepError)
    (hfail : (executeStep cfg env keys k (tc.Steps.getD k default)).2 = Except.error e)
    (j m : Nat) (hkj : k < j) :
    Event.applyMutation j m ∉ (executeTestCase cfg env keys tc).1 := by
  intro hmem
  have h1 : Event.applyMutation j m ∈ (executeSteps cfg env keys 0 tc.Steps).1 := hmem
  obtain ⟨-, hall⟩ := executeSteps_apply_mem cfg env keys tc.Steps 0 j m h1
  obtain ⟨r, hr⟩ := hall k (by omega)
  rw [Nat.zero_add] at hr
  rw [hfail] at hr
  exact absurd hr (by simp)

/-- C5 witness: in a two-step test case whose first step fails in the Perturbing
state, step 2's mutation call (step index 1, mutation 1) never occurs. -/
theorem failfast_no_later_mutation_witness :
    (executeStep (mkInterpreterConfig defaultGenerateArgs) sampleEnvApplyFails [] 0
        (sampleTwoStepCase.Steps.getD 0 default)).2 = Except.error StepError.perturbError ∧
    0 < 1 ∧
    Event.applyMutation 1 1 ∉
      (executeTestCase (mkInterpreterConfig defaultGenerateArgs) sampleEnvApplyFails []
        sampleTwoStepCase).1 :=
  ⟨by rfl, by decide,
    failfast_no_later_mutation (mkInterpreterConfig defaultGenerateArgs) sampleEnvApplyFails []
      sampleTwoStepCase 0 StepError.perturbError (by rfl) 1 1 (by decide)⟩

/-- C1 counterexample: with two test cases whose mutations are rejected by the
provisioner, the first case yields a terminal error, and then the run dies at
the DoOrDie guard of generate.go line 145 — the second test case never starts,
contradicting the claim that the run continues with the next test case. -/
theorem caseError_aborts_run_cex :
    (executeTestCase (mkInterpreterConfig defaultGenerateArgs) sampleEnvApplyFails []
        sampleCase).2.Err = some StepError.perturbError ∧
    (RunGenerateCommand defaultGenerateArgs sampleRunEnvFailing).2 = RunExit.died ∧
    Event.executeCase 1 ∉ (RunGenerateCommand defaultGenerateArgs sampleRunEnvFailing).1 := by
  refine ⟨by rfl, by rfl, by decide⟩

/-- C1 amended: when the test case at position k of a run yields a terminal
error in its Result, the run is aborted by DoOrDie: no test case at a later
position is ever started. -/
theorem no_later_case_after_error (cfg : InterpreterConfig) (env : Env) (keys : List Cell)
    (tcs : List TestCase) (k j : Nat)
    (herr : (executeTestCase cfg env keys (tcs.getD k default)).2.Err ≠ none)
    (hkj : k < j) :
    Event.executeCase j ∉ (runTestCaseLoop cfg env keys 0 tcs).1 := by
  intro hmem
  obtain ⟨-, hall⟩ := executeCase_mem_loop cfg env keys tcs 0 j hmem
  exact herr (hall k (by omega))

/-- C1 amended witness: with the first of two test cases erroring, test case 1
is never started by the loop. -/
theorem no_later_case_after_error_witness :
    (executeTestCase (mkInterpreterConfig defaultGenerateArgs) sampleEnvApplyFails []
        ([sampleCase, sampleCase].getD 0 default)).2.Err ≠ none ∧
    0 < 1 ∧
    Event.executeCase 1 ∉
      (runTestCaseLoop (mkInterpreterConfig defaultGenerateArgs) sampleEnvApplyFails [] 0
        [sampleCase, sampleCase]).1 :=
  ⟨by decide, by decide,
    no_later_case_after_error (mkInterpreterConfig defaultGenerateArgs) sampleEnvApplyFails []
      [sampleCase, sampleCase] 0 1 (by decide) (by decide)⟩

lemma caseIndices_loop (cfg : InterpreterConfig) (env : Env) (keys : List Cell) :
    ∀ (tcs : List TestCase) (i : Nat),
      ∃ k, k ≤ tcs.length ∧
        caseIndices (runTestCaseLoop cfg env keys i tcs).1 = idxRange i k := by
  intro tcs
  induction tcs with
  | nil =>
    intro i
    exact ⟨0, by simp, by simp [runTestCaseLoop, caseIndices, idxRange]⟩
  | cons tc rest ih =>
    intro i
    cases hcase : executeTestCase cfg env keys tc with
    | mk ev res =>
      have hev : caseIndices ev = [] := by
        have h1 := caseIndices_executeTestCase cfg env keys tc
        rw [hcase] at h1
        exact h1
      cases herr : res.Err with
      | some e =>
        refine ⟨1, by simp, ?_⟩
        rw [runTestCaseLoop, hcase]
        simp only
        rw [herr]
        simp only [caseIndices, List.filterMap_cons] at hev ⊢
        rw [hev]
        rfl
      | none =>
        obtain ⟨k, hk, hind⟩ := ih (i + 1)
        refine ⟨k + 1, by simpa using hk, ?_⟩
        rw [runTestCaseLoop, hcase]
        simp only
        rw [herr]
        simp only [caseIndices, List.filterMap_cons, List.filterMap_append] at hev hind ⊢
        rw [hev, hind]
        rfl

lemma caseIndices_append (l1 l2 : List Event) :
    caseIndices (l1 ++ l2) = caseIndices l1 ++ caseIndices l2 := by
  simp [caseIndices, List.filterMap_append]

lemma caseIndices_deleteNamespaces (nss : List String) :
    caseIndices (nss.map Event.deleteNamespace) = [] := by
  induction nss with
  | nil => rfl
  | cons n rest ih =>
    simp only [List.map_cons, caseIndices, List.filterMap_cons] at ih ⊢
    exact ih

lemma destinationOverride_length (dt : String) (tcs tcs2 : List TestCase)
    (h : destinationOverride dt tcs = Except.ok tcs2) : tcs2.length = tcs.length := by
  unfold destinationOverride at h
  split_ifs at h with h1
  · rw [Except.ok.injEq] at h
    subst h
    rfl
  · cases hp : ParseProbeMode dt with
    | none =>
      rw [hp] at h
      simp at h
    | some m =>
      rw [hp] at h
      simp only at h
      rw [Except.ok.injEq] at h
      subst h
      simp [setProbeModes]

/-- C7: in every run of the generate command, the positions of the test cases
that get started form the consecutive sequence 0, 1, ..., k-1 for some k not
exceeding the number of generated test cases: the cases execute strictly
sequentially in generator order, each started only after the previous one fully
resolved (the loop body, including the case's whole collaborator trace, precedes
the next start event). -/
theorem testCases_sequential_in_order (args : GenerateArgs) (renv : RunEnv) :
    ∃ k, k ≤ renv.testCases.length ∧
      caseIndices (RunGenerateCommand args renv).1 = idxRange 0 k := by
  unfold RunGenerateCommand
  by_cases hdry : args.DryRun = true
  · rw [if_pos hdry]
    exact ⟨0, by simp, by simp [caseIndices, idxRange]⟩
  · rw [if_neg hdry]
    cases hover : destinationOverride args.DestinationType renv.testCases with
    | error u =>
      exact ⟨0, by simp, by simp [caseIndices, idxRange]⟩
    | ok tcs =>
      dsimp only
      have hlen : tcs.length = renv.testCases.length :=
        destinationOverride_length args.DestinationType renv.testCases tcs hover
      obtain ⟨k, hk, hind⟩ :=
        caseIndices_loop (mkInterpreterConfig args) renv.env renv.keys tcs 0
      cases hloop : runTestCaseLoop (mkInterpreterConfig args) renv.env renv.keys 0 tcs with
      | mk ev ex =>
        rw [hloop] at hind
        cases ex with
        | died =>
          refine ⟨k, by omega, ?_⟩
          exact hind
        | completed =>
          refine ⟨k, by omega, ?_⟩
          dsimp only
          rw [caseIndices_append, hind]
          by_cases hclean : args.CleanupNamespaces = true
          · rw [if_pos hclean, caseIndices_deleteNamespaces, List.append_nil]
          · rw [if_neg hclean]
            simp [caseIndices]

/-- C10: for every non-dry-run invocation, an empty destination-type leaves the
test cases untouched; a non-empty destination-type that fails to parse kills the
run at the DoOrDie guard before any test case starts (empty trace, died exit);
and one that parses to a mode rewrites the probe mode of every step of every
test case to that mode before the execution loop. -/
theorem destinationType_override (args : GenerateArgs) (renv : RunEnv)
    (hdry : args.DryRun = false) :
    (args.DestinationType = "" →
      destinationOverride args.DestinationType renv.testCases = Except.ok renv.testCases) ∧
    (args.DestinationType ≠ "" → ParseProbeMode args.DestinationType = none →
      RunGenerateCommand args renv = ([], RunExit.died)) ∧
    (∀ mode, ParseProbeMode args.DestinationType = some mode →
      ∃ tcs, destinationOverride args.DestinationType renv.testCases = Except.ok tcs ∧
        ∀ tc ∈ tcs, ∀ s ∈ tc.Steps, s.Probe.Mode = mode) := by
  refine ⟨?_, ?_, ?_⟩
  · intro h
    unfold destinationOverride
    simp [h]
  · intro hne hp
    unfold RunGenerateCommand
    simp only [hdry, Bool.false_eq_true, if_false]
    unfold destinationOverride
    simp [hne, hp]
  · intro mode hp
    by_cases hemp : args.DestinationType = ""
    · rw [hemp] at hp
      simp [ParseProbeMode] at hp
    · refine ⟨setProbeModes mode renv.testCases, ?_, ?_⟩
      · unfold destinationOverride
        simp [hemp, hp]
      · intro tc htc s hs
        unfold setProbeModes at htc
        rw [List.mem_map] at htc
        obtain ⟨tc0, -, rfl⟩ := htc
        simp only at hs
        rw [List.mem_map] at hs
        obtain ⟨s0, -, rfl⟩ := hs
        rfl

/-- C10 witness: a run with destination-type pod-ip overrides every step's
probe mode to podIP. -/
theorem destinationType_override_witness :
    podIPArgs.DryRun = false ∧
    ((podIPArgs.DestinationType = "" →
      destinationOverride podIPArgs.DestinationType sampleRunEnvFailing.testCases =
        Except.ok sampleRunEnvFailing.testCases) ∧
    (podIPArgs.DestinationType ≠ "" → ParseProbeMode podIPArgs.DestinationType = none →
      RunGenerateCommand podIPArgs sampleRunEnvFailing = ([], RunExit.died)) ∧
    (∀ mode, ParseProbeMode podIPArgs.DestinationType = some mode →
      ∃ tcs, destinationOverride podIPArgs.DestinationType sampleRunEnvFailing.testCases =
          Except.ok tcs ∧
        ∀ tc ∈ tcs, ∀ s ∈ tc.Steps, s.Probe.Mode = mode)) :=
  ⟨rfl, destinationType_override podIPArgs sampleRunEnvFailing rfl⟩

end Cyclonus
